import Mathlib

/-!
Verification of the cartopy specification claims against the repository's
two visible source files (`lib/cartopy/tests/crs/helpers.py` and
`docs/make_projection.py`) and against a model, built from the
specification's own words, of the coordinate-reference-system and
geometry-reprojection engine that the specification describes but whose
code is not among the visible files.
-/

namespace Cartopy

/-- Python `str.lstrip('+')` on a string given as its character list:
drop every leading plus sign. -/
def lstripPlus : List Char → List Char
  | '+' :: rest => lstripPlus rest
  | s => s

/-- Python `str.split(' +')` on a string given as its character list:
split on the two-character separator, non-overlapping, leftmost first,
keeping empty pieces. -/
def splitPlusSep : List Char → List (List Char)
  | [] => [[]]
  | ' ' :: '+' :: rest => [] :: splitPlusSep rest
  | c :: rest =>
    match splitPlusSep rest with
    | [] => [[c]]
    | t :: ts => (c :: t) :: ts

/-- The token list a PROJ parameter string yields in `check_proj_params`
(`lib/cartopy/tests/crs/helpers.py`): strip the leading plus signs
(Python `lstrip`), then split on the separator between parameters
(Python `split`). -/
def projTokens (proj4_init : List Char) : List (List Char) :=
  splitPlusSep (lstripPlus proj4_init)

/-- The token set (Python `set(...)`) of a PROJ parameter string, as
formed by `check_proj_params`. -/
def projParams (proj4_init : List Char) : Finset (List Char) :=
  (projTokens proj4_init).toFinset

/-- Embedding of `check_proj_params` from
`lib/cartopy/tests/crs/helpers.py`: the assertion succeeds exactly when
`expected == proj_params`, where `expected` is the union of the caller's
token set with the proj token and the `no_defs` marker, and
`proj_params` is the token set of `crs.proj4_init`. -/
def check_proj_params (name : List Char) (crs_proj4_init : List Char)
    (other_args : Finset (List Char)) : Bool :=
  decide (other_args ∪ {(("proj=").data ++ name), (("no_defs").data)} =
    projParams crs_proj4_init)

/-- A Python attribute of the `cartopy.crs` module, abstracted to the two
predicates that `find_projections` (`docs/make_projection.py`) tests on
the attribute's value: `isinstance(o, type)` and
`issubclass(o, ccrs.Projection)`. -/
structure PyAttr where
  isClass : Bool
  isSubclassOfProjection : Bool
deriving DecidableEq

/-- Embedding of `find_projections` from `docs/make_projection.py`: the
module is given as the list of its `(name, attribute)` pairs (Python
`vars(ccrs).items()`), and the generator yields the attribute values
that pass the filter. -/
def find_projections (modvars : List (String × PyAttr)) : List PyAttr :=
  (modvars.filter (fun x =>
    x.2.isClass && x.2.isSubclassOfProjection &&
    !(x.1.startsWith ("_")) && !(decide (x.1 ∈ [("Projection")])))).map (fun x => x.2)

/-! ## Spec-modelled core

The engine below is modelled from the specification (its code is not
among the visible repository files). Machine floating point is rendered
as exact rational arithmetic. -/

/-- Modelled from the spec (§3): a `ProjectionSpec` is the immutable
identity (family name, ordered parameter mapping of name to numeric
value); equality is structural. -/
structure ProjectionSpec where
  family : String
  specParams : List (String × ℚ)
deriving DecidableEq

/-- Modelled from the spec (§3): look a parameter up in a spec's ordered
mapping, falling back to the family default. -/
def ProjectionSpec.param (spec : ProjectionSpec) (n : String) (dflt : ℚ) : ℚ :=
  match spec.specParams.find? (fun kv => kv.1 == n) with
  | some kv => kv.2
  | none => dflt

/-- Modelled from the spec (§4.2): longitude wrap-normalization to the
canonical range `[-180, 180)`. -/
def wrapTo180 (q : ℚ) : ℚ := q - 360 * ((⌊(q + 180) / 360⌋ : ℤ) : ℚ)

/-- Modelled from the spec (§1, §4.2): the low-level forward/inverse
projection math library, a black box mapping geographic (lon, lat) to
planar (x, y) and back, reporting failure (`none`) for out-of-domain or
singular input. -/
structure FamilyMath where
  fwd : ℚ × ℚ → Option (ℚ × ℚ)
  inv : ℚ × ℚ → Option (ℚ × ℚ)

/-- Modelled from the spec: the per-family math. The cylindrical family
`platecarree` shifts longitudes by its central longitude and wraps; the
`azimuthal` family is defined on the hemisphere around its central
longitude and fails (`none`) outside it; any other family is treated as
the geographic identity. -/
def mathOf (spec : ProjectionSpec) : FamilyMath :=
  if spec.family == ("platecarree") then
    { fwd := fun g => some (wrapTo180 (g.1 - spec.param ("central_longitude") 0), g.2)
      inv := fun p => some (p.1 + spec.param ("central_longitude") 0, p.2) }
  else if spec.family == ("azimuthal") then
    { fwd := fun g =>
        if -90 < wrapTo180 (g.1 - spec.param ("central_longitude") 0) ∧
            wrapTo180 (g.1 - spec.param ("central_longitude") 0) < 90 then
          some (wrapTo180 (g.1 - spec.param ("central_longitude") 0), g.2)
        else none
      inv := fun p => some (p.1 + spec.param ("central_longitude") 0, p.2) }
  else
    { fwd := fun g => some g
      inv := fun p => some p }

/-- Modelled from the spec (§3, §4.3): the valid planar x-range of a
family (`x_limits`). -/
def xLimits (spec : ProjectionSpec) : ℚ × ℚ :=
  if spec.family == ("azimuthal") then (-90, 90) else (-180, 180)

/-- Modelled from the spec (§3, §4.3): the valid planar y-range of a
family (`y_limits`). -/
def yLimits (_spec : ProjectionSpec) : ℚ × ℚ := (-90, 90)

/-- Modelled from the spec (§3, §4.3): membership in a projection's
valid (x, y) rectangle. -/
def inDomain (spec : ProjectionSpec) (p : ℚ × ℚ) : Bool :=
  decide ((xLimits spec).1 ≤ p.1 ∧ p.1 ≤ (xLimits spec).2 ∧
    (yLimits spec).1 ≤ p.2 ∧ p.2 ≤ (yLimits spec).2)

/-- Modelled from the spec (§4.2): the Point Transformer. Structural
equality of the two specs short-circuits to the identity; otherwise
inverse-project to geographic, wrap-normalize the longitude, forward
project to the target, and check the target domain. `none` stands for
the `OutOfDomain`/`SingularPoint` domain errors. -/
def projectPoint (p : ℚ × ℚ) (A B : ProjectionSpec) : Option (ℚ × ℚ) :=
  if A = B then some p
  else
    match (mathOf A).inv p with
    | none => none
    | some g =>
      match (mathOf B).fwd (wrapTo180 g.1, g.2) with
      | none => none
      | some q => if inDomain B q then some q else none

/-- Modelled from the spec (§4.3): whether a family's image wraps, so
that it carries a longitude discontinuity meridian. -/
def hasWrapDiscontinuity (spec : ProjectionSpec) : Bool :=
  spec.family == ("platecarree")

/-- Modelled from the spec (§4.3): the geographic longitude of a
wrapping family's discontinuity meridian (the antimeridian of its
central longitude). -/
def discMeridian (spec : ProjectionSpec) : ℚ :=
  wrapTo180 (spec.param ("central_longitude") 0 + 180)

/-- Modelled from the spec (§4.3): whether the straight source-space
segment from `p1` to `p2` crosses the target family `B`'s discontinuity
meridian, decided on the segment's interpolated longitude after
inverse-projecting both endpoints from the source family `A`. -/
def crossesDiscontinuity (p1 p2 : ℚ × ℚ) (A B : ProjectionSpec) : Bool :=
  hasWrapDiscontinuity B &&
    match (mathOf A).inv p1, (mathOf A).inv p2 with
    | some g1, some g2 =>
      decide ((wrapTo180 (g1.1 - discMeridian B) < 0 ∧ 0 < wrapTo180 (g2.1 - discMeridian B)) ∨
        (wrapTo180 (g2.1 - discMeridian B) < 0 ∧ 0 < wrapTo180 (g1.1 - discMeridian B)))
    | _, _ => false

/-- Modelled from the spec (§4.3): the point on the discontinuity curve
where the straight segment between `p1` and `p2` should be cut, given in
the neutral geographic representation: the discontinuity meridian's
longitude together with the segment's latitude interpolated at the
longitude crossing. -/
def splitPoint (p1 p2 : ℚ × ℚ) (A B : ProjectionSpec) : Option (ℚ × ℚ) :=
  if crossesDiscontinuity p1 p2 A B then
    match (mathOf A).inv p1, (mathOf A).inv p2 with
    | some g1, some g2 =>
      some (discMeridian B,
        g1.2 + (wrapTo180 (g1.1 - discMeridian B) /
          (wrapTo180 (g1.1 - discMeridian B) - wrapTo180 (g2.1 - discMeridian B))) *
          (g2.2 - g1.2))
    | _, _ => none
  else none

/-- Modelled from the spec (§3): half of a family's valid planar width. -/
def halfWidth (spec : ProjectionSpec) : ℚ := ((xLimits spec).2 - (xLimits spec).1) / 2

/-- Modelled from the spec (§3): a family's valid planar width. -/
def validWidth (spec : ProjectionSpec) : ℚ := (xLimits spec).2 - (xLimits spec).1

/-- Modelled from the spec (§4.4 step 2): the two projected copies of a
synthetic split vertex — the edge point closing the part that contains
`p0`, and the edge point opening the part that continues with `p`. Each
lies on the target's x-limit on the side from which its part approaches
the discontinuity. -/
def splitEdges (p0 p : ℚ × ℚ) (A B : ProjectionSpec) : (ℚ × ℚ) × (ℚ × ℚ) :=
  match splitPoint p0 p A B, (mathOf A).inv p0 with
  | some s, some g0 =>
    if wrapTo180 (g0.1 - discMeridian B) < 0 then
      ((halfWidth B, s.2), (-(halfWidth B), s.2))
    else
      ((-(halfWidth B), s.2), (halfWidth B, s.2))
  | _, _ => ((0, 0), (0, 0))

/-- Modelled from the spec (§4.4 steps 1–3): walk a source polyline,
projecting every vertex, cutting at discontinuity crossings by inserting
the projected synthetic split vertex on each side, and breaking the
current part at any vertex whose projection fails; a fully invalid run
contributes no part. `prev` is the previous source vertex when it was
valid, `cur` the projected vertices of the part under construction. -/
def walkLine (A B : ProjectionSpec) : Option (ℚ × ℚ) → List (ℚ × ℚ) →
    List (ℚ × ℚ) → List (List (ℚ × ℚ))
  | _, cur, [] => if cur.isEmpty then [] else [cur]
  | prev, cur, p :: rest =>
    match projectPoint p A B with
    | none => (if cur.isEmpty then [] else [cur]) ++ walkLine A B none [] rest
    | some q =>
      match prev with
      | none => walkLine A B (some p) (cur ++ [q]) rest
      | some p0 =>
        if crossesDiscontinuity p0 p A B then
          (cur ++ [(splitEdges p0 p A B).1]) ::
            walkLine A B (some p) [(splitEdges p0 p A B).2, q] rest
        else walkLine A B (some p) (cur ++ [q]) rest

/-- Modelled from the spec (§3): a basic geometry — Point, LineString,
or Polygon with holes. -/
inductive BasicGeom where
  | point (p : ℚ × ℚ)
  | lineString (pts : List (ℚ × ℚ))
  | polygon (outer : List (ℚ × ℚ)) (holes : List (List (ℚ × ℚ)))
deriving DecidableEq

/-- Modelled from the spec (§3): a geometry — a basic geometry or a
MultiGeometry, an ordered collection of basic geometries. -/
inductive Geometry where
  | basic (b : BasicGeom)
  | multi (gs : List BasicGeom)
deriving DecidableEq

/-- Modelled from the spec (§4.4): a polygon ring is structurally well
formed when it has at least 3 distinct vertices. -/
def ringWellFormed (ring : List (ℚ × ℚ)) : Bool :=
  decide (3 ≤ ring.dedup.length)

/-- Modelled from the spec (§4.4): structural well-formedness of a basic
geometry. -/
def basicWellFormed : BasicGeom → Bool
  | .point _ => true
  | .lineString _ => true
  | .polygon outer holes => ringWellFormed outer && holes.all ringWellFormed

/-- Modelled from the spec (§4.4): structural well-formedness of a
geometry. -/
def wellFormed : Geometry → Bool
  | .basic b => basicWellFormed b
  | .multi gs => gs.all basicWellFormed

/-- Close a ring by repeating its first vertex at the end. -/
def closeRing (ring : List (ℚ × ℚ)) : List (ℚ × ℚ) :=
  match ring with
  | [] => []
  | h :: _ => ring ++ [h]

/-- Modelled from the spec (§4.4 step 4, §9): a reprojected ring chain
is closed back onto its first vertex. The boundary-walk closure of
multiply-split rings is the spec's declared open question and is
modelled by this direct closure of each chain. -/
def closeChain (c : List (ℚ × ℚ)) : List (ℚ × ℚ) :=
  match c with
  | [] => []
  | h :: _ => c ++ [h]

/-- Modelled from the spec (§4.4): reproject one basic geometry into its
list of valid parts; per-point failures only shrink or drop parts. -/
def reprojectBasic (A B : ProjectionSpec) : BasicGeom → List BasicGeom
  | .point p =>
    match projectPoint p A B with
    | some q => [.point q]
    | none => []
  | .lineString pts => (walkLine A B none [] pts).map .lineString
  | .polygon outer holes =>
    ((walkLine A B none [] (closeRing outer)).map
      (fun c => BasicGeom.polygon (closeChain c) [])) ++
    (holes.flatMap (fun hole =>
      (walkLine A B none [] (closeRing hole)).map
        (fun c => BasicGeom.polygon (closeChain c) [])))

/-- Modelled from the spec (§4.4, §7): the one hard failure of the
Geometry Reprojector. -/
inductive ReprojErr where
  | invalidGeometry
deriving DecidableEq

/-- Modelled from the spec (§4.4): the Geometry Reprojector. Structurally
malformed input fails hard with `invalidGeometry`; structurally equal
source and target specs short-circuit to the identity; otherwise every
member is decomposed into its valid parts, member results concatenated. -/
def reproject (g : Geometry) (A B : ProjectionSpec) : Except ReprojErr Geometry :=
  if wellFormed g then
    if A = B then .ok g
    else
      match g with
      | .basic b => .ok (.multi (reprojectBasic A B b))
      | .multi gs => .ok (.multi (gs.flatMap (reprojectBasic A B)))
  else .error .invalidGeometry

/-- The number of parts of a geometry. -/
def partCount : Geometry → Nat
  | .basic _ => 1
  | .multi gs => gs.length

/-- The x-span of a part's vertex list. -/
def partSpan (pts : List (ℚ × ℚ)) : ℚ :=
  match pts.map (fun p => p.1) with
  | [] => 0
  | x :: xs => (xs.foldr max x) - (xs.foldr min x)

/-- Modelled from the spec (§3, §5): geometries are caller-owned values
held in an explicit store; the Reprojector reads its input geometry from
the store and produces a new value, never writing the store. -/
def reprojectFromStore (store : List Geometry) (i : Nat) (A B : ProjectionSpec) :
    List Geometry × Except ReprojErr Geometry :=
  match store[i]? with
  | some g => (store, reproject g A B)
  | none => (store, .error .invalidGeometry)

/-- The cylindrical family instance used by concrete inputs. -/
def plateCarree (cl : ℚ) : ProjectionSpec :=
  ⟨("platecarree"), [(("central_longitude"), cl)]⟩

/-- The azimuthal family instance used by concrete inputs. -/
def azimuthalSpec (cl : ℚ) : ProjectionSpec :=
  ⟨("azimuthal"), [(("central_longitude"), cl)]⟩

/-! ## The Registry (§4.1), modelled from the spec -/

/-- Modelled from the spec (§4.1): one entry of a family's parameter
schema — name, declared numeric range, whether it is required, and its
documented default when one exists. -/
structure ParamSchema where
  pname : String
  lo : ℚ
  hi : ℚ
  required : Bool
  dflt : Option ℚ
deriving DecidableEq

/-- Modelled from the spec (§4.1): a family's parameter schema. -/
structure FamilySchema where
  schemaParams : List ParamSchema
deriving DecidableEq

/-- Modelled from the spec (§4.1, §7): the construction-time error
taxonomy. -/
inductive ConstructErr where
  | unknownFamily
  | invalidParameter
  | missingRequiredParameter
deriving DecidableEq

/-- Modelled from the spec (§4.1): the Registry's family table. -/
abbrev Registry := List (String × FamilySchema)

/-- Look a parameter name up in a family schema. -/
def findSchemaParam (fs : FamilySchema) (n : String) : Option ParamSchema :=
  fs.schemaParams.find? (fun ps => ps.pname == n)

/-- Modelled from the spec (§4.1): a supplied parameter is acceptable
when its name is in the schema and its value is inside the declared
range. -/
def suppliedOk (fs : FamilySchema) (kv : String × ℚ) : Bool :=
  match findSchemaParam fs kv.1 with
  | none => false
  | some ps => decide (ps.lo ≤ kv.2 ∧ kv.2 ≤ ps.hi)

/-- Modelled from the spec (§4.1): some required schema parameter has no
default and is not supplied. -/
def missingRequired (fs : FamilySchema) (supplied : List (String × ℚ)) : Bool :=
  fs.schemaParams.any (fun ps =>
    ps.required && ps.dflt.isNone && !(supplied.any (fun kv => kv.1 == ps.pname)))

/-- Modelled from the spec (§4.1): construct a `ProjectionSpec` for a
named family from a parameter mapping, validating against the Registry
schema: `unknownFamily` when the name is absent, `invalidParameter` when
a supplied parameter has an unknown name or an out-of-range value,
`missingRequiredParameter` when a required field lacks both an override
and a default; otherwise the spec with defaults merged in. -/
def construct (reg : Registry) (fam : String) (supplied : List (String × ℚ)) :
    Except ConstructErr ProjectionSpec :=
  match reg.find? (fun e => e.1 == fam) with
  | none => .error .unknownFamily
  | some e =>
    if supplied.all (suppliedOk e.2) then
      if missingRequired e.2 supplied then .error .missingRequiredParameter
      else .ok ⟨fam, e.2.schemaParams.filterMap (fun ps =>
        match supplied.find? (fun kv => kv.1 == ps.pname) with
        | some kv => some (ps.pname, kv.2)
        | none => ps.dflt.map (fun v => (ps.pname, v)))⟩
    else .error .invalidParameter

/-- The Registry instance used by concrete inputs: a cylindrical family
whose central longitude is optional with default 0, and a zoned family
whose zone is required with no default. -/
def sampleRegistry : Registry :=
  [(("platecarree"), ⟨[⟨("central_longitude"), -360, 360, false, some 0⟩]⟩),
   (("utm"), ⟨[⟨("zone"), 1, 60, true, none⟩]⟩)]

/-! ## Helper lemmas -/

theorem wrapTo180_eq_sub (q : ℚ) (k : ℤ) (h1 : -180 ≤ q - 360 * k) (h2 : q - 360 * k < 180) :
    wrapTo180 q = q - 360 * k := by
  have hf : ⌊(q + 180) / 360⌋ = k := by
    rw [Int.floor_eq_iff]
    constructor
    · rw [le_div_iff₀ (by norm_num : (0:ℚ) < 360)]
      nlinarith
    · rw [div_lt_iff₀ (by norm_num : (0:ℚ) < 360)]
      nlinarith
  simp only [wrapTo180, hf]

theorem wrapTo180_eval (q r : ℚ) (k : ℤ) (h : q - 360 * k = r) (h1 : -180 ≤ r) (h2 : r < 180) :
    wrapTo180 q = r := by
  rw [wrapTo180_eq_sub q k (h ▸ h1) (h ▸ h2), h]

theorem wrapTo180_bounds (q : ℚ) : -180 ≤ wrapTo180 q ∧ wrapTo180 q < 180 := by
  have h1 : ((⌊(q + 180) / 360⌋ : ℤ) : ℚ) * 360 ≤ q + 180 := by
    rw [← le_div_iff₀ (by norm_num : (0:ℚ) < 360)]
    exact Int.floor_le _
  have h2 : q + 180 < (((⌊(q + 180) / 360⌋ : ℤ) : ℚ) + 1) * 360 := by
    rw [← div_lt_iff₀ (by norm_num : (0:ℚ) < 360)]
    exact Int.lt_floor_add_one _
  constructor
  · simp only [wrapTo180]
    nlinarith
  · simp only [wrapTo180]
    nlinarith

theorem param_single (fam n : String) (v d : ℚ) :
    ProjectionSpec.param ⟨fam, [(n, v)]⟩ n d = v := by
  simp [ProjectionSpec.param, List.find?]

theorem plateCarree_param (cl d : ℚ) :
    (plateCarree cl).param (("central_longitude")) d = cl :=
  param_single _ _ _ _

theorem azimuthalSpec_param (cl d : ℚ) :
    (azimuthalSpec cl).param (("central_longitude")) d = cl :=
  param_single _ _ _ _

theorem mathOf_plateCarree_inv (cl : ℚ) (p : ℚ × ℚ) :
    (mathOf (plateCarree cl)).inv p = some (p.1 + cl, p.2) := by
  simp [mathOf, plateCarree, param_single]

theorem mathOf_plateCarree_fwd (cl : ℚ) (g : ℚ × ℚ) :
    (mathOf (plateCarree cl)).fwd g = some (wrapTo180 (g.1 - cl), g.2) := by
  simp [mathOf, plateCarree, param_single]

theorem mathOf_azimuthalSpec_inv (cl : ℚ) (p : ℚ × ℚ) :
    (mathOf (azimuthalSpec cl)).inv p = some (p.1 + cl, p.2) := by
  simp [mathOf, azimuthalSpec, param_single]

theorem mathOf_azimuthalSpec_fwd (cl : ℚ) (g : ℚ × ℚ) :
    (mathOf (azimuthalSpec cl)).fwd g =
      (if -90 < wrapTo180 (g.1 - cl) ∧ wrapTo180 (g.1 - cl) < 90 then
        some (wrapTo180 (g.1 - cl), g.2) else none) := by
  simp [mathOf, azimuthalSpec, param_single]

theorem xLimits_plateCarree (cl : ℚ) : xLimits (plateCarree cl) = (-180, 180) := by
  simp [xLimits, plateCarree]

theorem hasWrapDiscontinuity_plateCarree (cl : ℚ) :
    hasWrapDiscontinuity (plateCarree cl) = true := by
  simp [hasWrapDiscontinuity, plateCarree]

theorem discMeridian_plateCarree (cl : ℚ) :
    discMeridian (plateCarree cl) = wrapTo180 (cl + 180) := by
  simp [discMeridian, plateCarree_param]

theorem halfWidth_plateCarree (cl : ℚ) : halfWidth (plateCarree cl) = 180 := by
  simp [halfWidth, xLimits_plateCarree]

theorem inDomain_plateCarree (cl : ℚ) (q : ℚ × ℚ)
    (h : -180 ≤ q.1 ∧ q.1 ≤ 180 ∧ -90 ≤ q.2 ∧ q.2 ≤ 90) :
    inDomain (plateCarree cl) q = true := by
  simp only [inDomain, xLimits_plateCarree, yLimits, decide_eq_true_eq]
  exact h

theorem mathOf_inv_isSome (A : ProjectionSpec) (p : ℚ × ℚ) :
    ∃ g, (mathOf A).inv p = some g := by
  by_cases h1 : (A.family == ("platecarree")) = true
  · exact ⟨(p.1 + A.param (("central_longitude")) 0, p.2), by simp [mathOf, h1]⟩
  · by_cases h2 : (A.family == ("azimuthal")) = true
    · exact ⟨(p.1 + A.param (("central_longitude")) 0, p.2), by simp [mathOf, h1, h2]⟩
    · exact ⟨p, by simp [mathOf, h1, h2]⟩

theorem projectPoint_plateCarree (clA clB x y : ℚ)
    (hne : plateCarree clA ≠ plateCarree clB) (hy1 : -90 ≤ y) (hy2 : y ≤ 90) :
    projectPoint (x, y) (plateCarree clA) (plateCarree clB) =
      some (wrapTo180 (wrapTo180 (x + clA) - clB), y) := by
  have hb := wrapTo180_bounds (wrapTo180 (x + clA) - clB)
  rw [projectPoint, if_neg hne, mathOf_plateCarree_inv]
  simp only [mathOf_plateCarree_fwd]
  rw [inDomain_plateCarree clB (wrapTo180 (wrapTo180 (x + clA) - clB), y)
    ⟨hb.1, hb.2.le, hy1, hy2⟩]
  simp

/-! ## Claim theorems -/

/-- Claim C1: `check_proj_params name crs other_args` passes exactly when
the set of tokens obtained from the CRS's exported parameter string
`proj4_init` equals `other_args` together with the `proj=<name>` token
and the `no_defs` marker, order-insensitive. -/
theorem check_proj_params_iff (name crs_proj4_init : List Char)
    (other_args : Finset (List Char)) :
    check_proj_params name crs_proj4_init other_args = true ↔
      projParams crs_proj4_init =
        other_args ∪ {(("proj=").data ++ name), (("no_defs").data)} := by
  simp [check_proj_params, eq_comm]

/-- Claim C10: `check_proj_params` compares token sets, so any two
parameter strings whose token lists agree up to order and multiplicity
(equal token sets) are indistinguishable to the check, for every
projection name and every expected-token set. -/
theorem check_proj_params_order_insensitive (s1 s2 : List Char)
    (h : (projTokens s1).toFinset = (projTokens s2).toFinset) (name : List Char)
    (other_args : Finset (List Char)) :
    check_proj_params name s1 other_args = check_proj_params name s2 other_args := by
  simp [check_proj_params, projParams, h]

/-- Witness for C10 at a concrete pair of strings whose tokens differ in
order and multiplicity but agree as sets. -/
theorem check_proj_params_order_insensitive_witness :
    (projTokens (("+proj=merc +no_defs").data)).toFinset =
      (projTokens (("+no_defs +proj=merc +no_defs").data)).toFinset ∧
    check_proj_params (("merc").data) (("+proj=merc +no_defs").data) ∅ =
      check_proj_params (("merc").data) (("+no_defs +proj=merc +no_defs").data) ∅ :=
  ⟨by decide, check_proj_params_order_insensitive _ _ (by decide) _ _⟩

/-- Claim C9: `find_projections` yields exactly the attribute values of
the module that are classes, are subclasses of `Projection`, whose
attribute name does not start with an underscore, and whose attribute
name is not `Projection` itself. -/
theorem find_projections_mem (modvars : List (String × PyAttr)) (o : PyAttr) :
    o ∈ find_projections modvars ↔
      ∃ n, (n, o) ∈ modvars ∧ o.isClass = true ∧ o.isSubclassOfProjection = true ∧
        n.startsWith ("_") = false ∧ n ≠ ("Projection") := by
  simp only [find_projections, List.mem_map, List.mem_filter]
  constructor
  · rintro ⟨⟨n, a⟩, ⟨hmem, hpred⟩, rfl⟩
    simp only [Bool.and_eq_true, Bool.not_eq_true', decide_eq_false_iff_not,
      List.mem_singleton] at hpred
    exact ⟨n, hmem, hpred.1.1.1, hpred.1.1.2, hpred.1.2, hpred.2⟩
  · rintro ⟨n, hmem, h1, h2, h3, h4⟩
    refine ⟨(n, o), ⟨hmem, ?_⟩, rfl⟩
    simp only [Bool.and_eq_true, Bool.not_eq_true', decide_eq_false_iff_not,
      List.mem_singleton]
    exact ⟨⟨⟨h1, h2⟩, h3⟩, h4⟩

/-- Claim C2: reprojecting a well-formed geometry between structurally
equal specs is the identity — the very same geometry comes back, with
the same coordinates and the same part count; the trigger is structural
equality of the `ProjectionSpec` values (family and parameter values),
not any notion of object identity. -/
theorem reproject_identity (g : Geometry) (A B : ProjectionSpec)
    (hwf : wellFormed g = true) (hAB : A = B) :
    reproject g A B = .ok g := by
  subst hAB
  rw [reproject.eq_def, if_pos hwf, if_pos rfl]

/-- Witness for C2: two separately written, structurally equal spec
values trigger the identity path on a concrete geometry. -/
theorem reproject_identity_witness :
    reproject (.basic (.point (1, 2))) (plateCarree 10)
      (⟨("platecarree"), [(("central_longitude"), 10)]⟩) =
      .ok (.basic (.point (1, 2))) :=
  reproject_identity _ _ _ (by rfl) (by rfl)

/-- Claim C7: rendered with an explicit geometry store (the only way a
shallow embedding can speak about in-place mutation), reprojection reads
its input geometry from the store and returns a fresh result, leaving
the store — in particular the input geometry — unchanged. -/
theorem reprojectFromStore_preserves_store (store : List Geometry) (i : Nat)
    (A B : ProjectionSpec) : (reprojectFromStore store i A B).1 = store := by
  unfold reprojectFromStore
  cases store[i]? <;> rfl

theorem walkLine_all_none (A B : ProjectionSpec) (pts : List (ℚ × ℚ))
    (h : ∀ p ∈ pts, projectPoint p A B = none) :
    walkLine A B none [] pts = [] := by
  induction pts with
  | nil => rfl
  | cons p tl ih =>
    have hp := h p (List.mem_cons_self p tl)
    have ih2 := ih (fun q hq => h q (List.mem_cons_of_mem p hq))
    simp [walkLine, hp, ih2]

/-- Claim C4: per-point domain failures never escape the Geometry
Reprojector: every well-formed geometry reprojects to a successful
`TransformResult` (never a point-level error), and a geometry none of
whose points has a valid image comes back as a valid empty result — for
a Point and for an arbitrary LineString. -/
theorem reproject_no_point_errors (A B : ProjectionSpec) :
    (∀ g : Geometry, wellFormed g = true → ∃ g2, reproject g A B = .ok g2) ∧
    (∀ p : ℚ × ℚ, projectPoint p A B = none →
        reproject (.basic (.point p)) A B = .ok (.multi [])) ∧
    (∀ pts : List (ℚ × ℚ), A ≠ B → (∀ p ∈ pts, projectPoint p A B = none) →
        reproject (.basic (.lineString pts)) A B = .ok (.multi [])) := by
  refine ⟨?_, ?_, ?_⟩
  · intro g hwf
    by_cases hAB : A = B
    · exact ⟨g, by subst hAB; rw [reproject.eq_def, if_pos hwf, if_pos rfl]⟩
    · cases g with
      | basic b =>
        exact ⟨.multi (reprojectBasic A B b), by rw [reproject.eq_def, if_pos hwf, if_neg hAB]⟩
      | multi gs =>
        exact ⟨.multi (gs.flatMap (reprojectBasic A B)),
          by rw [reproject.eq_def, if_pos hwf, if_neg hAB]⟩
  · intro p hp
    have hAB : A ≠ B := by
      intro hAB
      rw [projectPoint, if_pos hAB] at hp
      exact Option.noConfusion hp
    have hwf : wellFormed (.basic (.point p)) = true := rfl
    rw [reproject.eq_def, if_pos hwf, if_neg hAB]
    simp [reprojectBasic, hp]
  · intro pts hAB hall
    have hwf : wellFormed (.basic (.lineString pts)) = true := rfl
    rw [reproject.eq_def, if_pos hwf, if_neg hAB]
    simp [reprojectBasic, walkLine_all_none A B pts hall]

theorem projectPoint_pc0_az0_none (x : ℚ) (hx1 : 90 ≤ x) (hx2 : x < 180) :
    projectPoint (x, 0) (plateCarree 0) (azimuthalSpec 0) = none := by
  have hne : plateCarree 0 ≠ azimuthalSpec 0 := by decide
  have hw1 : wrapTo180 (x + 0) = x :=
    wrapTo180_eval _ _ 0 (by norm_num) (by linarith) (by linarith)
  have hw2 : wrapTo180 (x - 0) = x :=
    wrapTo180_eval _ _ 0 (by norm_num) (by linarith) (by linarith)
  rw [projectPoint, if_neg hne, mathOf_plateCarree_inv]
  simp only [mathOf_azimuthalSpec_fwd, hw1, hw2]
  rw [if_neg (by intro hc; linarith [hc.2] : ¬(-90 < x ∧ x < 90))]

/-- Witness for C4: a LineString lying entirely outside the azimuthal
family's hemisphere reprojects to the empty result. -/
theorem reproject_no_point_errors_witness :
    reproject (.basic (.lineString [((100 : ℚ), 0), (120, 0)])) (plateCarree 0)
      (azimuthalSpec 0) = .ok (.multi []) := by
  refine (reproject_no_point_errors _ _).2.2 _ (by decide) ?_
  intro p hp
  rcases List.mem_cons.mp hp with rfl | hp2
  · exact projectPoint_pc0_az0_none 100 (by norm_num) (by norm_num)
  · rcases List.mem_cons.mp hp2 with rfl | hp3
    · exact projectPoint_pc0_az0_none 120 (by norm_num) (by norm_num)
    · exact absurd hp3 (List.not_mem_nil p)

/-- Claim C3: where the source-to-target-to-source path is well
conditioned — both black-box steps succeed, the intermediate geographic
point needs no wrap and is a mutual fixed point of the two families'
forward/inverse math, and both planar images are in domain — the Point
Transformer's round trip recovers the original point exactly (exact
rational arithmetic stands in for "within a small numeric tolerance"). -/
theorem projectPoint_roundtrip (A B : ProjectionSpec) (p g q : ℚ × ℚ)
    (hAB : A ≠ B)
    (hinvA : (mathOf A).inv p = some g)
    (hwrap : wrapTo180 g.1 = g.1)
    (hfwdB : (mathOf B).fwd g = some q)
    (hdomB : inDomain B q = true)
    (hinvB : (mathOf B).inv q = some g)
    (hfwdA : (mathOf A).fwd g = some p)
    (hdomA : inDomain A p = true) :
    projectPoint p A B = some q ∧ projectPoint q B A = some p := by
  have hg : ((wrapTo180 g.1 : ℚ), g.2) = g := by rw [hwrap]
  constructor
  · rw [projectPoint, if_neg hAB, hinvA]
    simp [hg, hfwdB, hdomB]
  · rw [projectPoint, if_neg (Ne.symm hAB), hinvB]
    simp [hg, hfwdA, hdomA]

/-- Witness for C3 at two concrete cylindrical specs and an interior
point. -/
theorem projectPoint_roundtrip_witness :
    projectPoint ((10 : ℚ), 20) (plateCarree 0) (plateCarree 30) = some (-20, 20) ∧
    projectPoint ((-20 : ℚ), 20) (plateCarree 30) (plateCarree 0) = some (10, 20) := by
  have hw10 : wrapTo180 (10 : ℚ) = 10 :=
    wrapTo180_eval _ _ 0 (by norm_num) (by norm_num) (by norm_num)
  have hwm20 : wrapTo180 ((10 : ℚ) - 30) = -20 :=
    wrapTo180_eval _ _ 0 (by norm_num) (by norm_num) (by norm_num)
  refine projectPoint_roundtrip (plateCarree 0) (plateCarree 30) (10, 20) (10, 20) (-20, 20)
    (by decide) ?_ ?_ ?_ ?_ ?_ ?_ ?_
  · rw [mathOf_plateCarree_inv]
    norm_num
  · exact hw10
  · rw [mathOf_plateCarree_fwd]
    simp only [hwm20]
  · exact inDomain_plateCarree 30 _ (by norm_num)
  · rw [mathOf_plateCarree_inv]
    norm_num
  · rw [mathOf_plateCarree_fwd]
    simp only []
    rw [show ((10 : ℚ), 20).1 - 0 = 10 by norm_num, hw10]
  · exact inDomain_plateCarree 0 _ (by norm_num)

theorem splitPoint_eq (p1 p2 : ℚ × ℚ) (A B : ProjectionSpec) (g1 g2 : ℚ × ℚ)
    (hg1 : (mathOf A).inv p1 = some g1) (hg2 : (mathOf A).inv p2 = some g2)
    (hc : crossesDiscontinuity p1 p2 A B = true) :
    splitPoint p1 p2 A B = some (discMeridian B,
      g1.2 + (wrapTo180 (g1.1 - discMeridian B) /
        (wrapTo180 (g1.1 - discMeridian B) - wrapTo180 (g2.1 - discMeridian B))) *
        (g2.2 - g1.2)) := by
  rw [splitPoint, if_pos hc, hg1, hg2]

theorem crossing_pc0_pc180 (y1 y2 : ℚ) :
    crossesDiscontinuity ((-179 : ℚ), y1) ((179 : ℚ), y2) (plateCarree 0)
      (plateCarree 180) = true := by
  have hm : discMeridian (plateCarree (180 : ℚ)) = 0 := by
    rw [discMeridian_plateCarree]
    exact wrapTo180_eval _ _ 1 (by push_cast; norm_num) (by norm_num) (by norm_num)
  have hw1 : wrapTo180 ((-179 : ℚ) + 0 - 0) = -179 :=
    wrapTo180_eval _ _ 0 (by norm_num) (by norm_num) (by norm_num)
  have hw2 : wrapTo180 ((179 : ℚ) + 0 - 0) = 179 :=
    wrapTo180_eval _ _ 0 (by norm_num) (by norm_num) (by norm_num)
  rw [crossesDiscontinuity, mathOf_plateCarree_inv, mathOf_plateCarree_inv]
  simp only [hasWrapDiscontinuity_plateCarree, Bool.true_and, hm, hw1, hw2]
  norm_num

/-- Claim C6: the split point is a deterministic function of the segment
and the spec alone: it exists whenever the segment crosses the
discontinuity, and the system's traversal order — feeding the segment as
`(p1, p2)` or as `(p2, p1)` — cannot change it. -/
theorem splitPoint_deterministic (p1 p2 : ℚ × ℚ) (A B : ProjectionSpec)
    (h : crossesDiscontinuity p1 p2 A B = true) :
    ∃ s, splitPoint p1 p2 A B = some s ∧ splitPoint p2 p1 A B = some s := by
  obtain ⟨g1, hg1⟩ := mathOf_inv_isSome A p1
  obtain ⟨g2, hg2⟩ := mathOf_inv_isSome A p2
  have h2 := h
  rw [crossesDiscontinuity, hg1, hg2] at h2
  simp only [Bool.and_eq_true, decide_eq_true_eq] at h2
  obtain ⟨hwrapB, hcond⟩ := h2
  have hsym : crossesDiscontinuity p2 p1 A B = true := by
    rw [crossesDiscontinuity, hg1, hg2]
    simp only [Bool.and_eq_true, decide_eq_true_eq]
    exact ⟨hwrapB, hcond.symm⟩
  have hne12 : wrapTo180 (g1.1 - discMeridian B) - wrapTo180 (g2.1 - discMeridian B) ≠ 0 := by
    rcases hcond with ⟨a, b⟩ | ⟨a, b⟩
    · exact sub_ne_zero_of_ne (ne_of_lt (lt_trans a b))
    · exact sub_ne_zero_of_ne (ne_of_gt (lt_trans a b))
  have hne21 : wrapTo180 (g2.1 - discMeridian B) - wrapTo180 (g1.1 - discMeridian B) ≠ 0 := by
    intro hc
    exact hne12 (by linarith)
  have key : g2.2 + (wrapTo180 (g2.1 - discMeridian B) /
      (wrapTo180 (g2.1 - discMeridian B) - wrapTo180 (g1.1 - discMeridian B))) *
        (g1.2 - g2.2) =
      g1.2 + (wrapTo180 (g1.1 - discMeridian B) /
      (wrapTo180 (g1.1 - discMeridian B) - wrapTo180 (g2.1 - discMeridian B))) *
        (g2.2 - g1.2) := by
    field_simp
    ring
  refine ⟨_, splitPoint_eq p1 p2 A B g1 g2 hg1 hg2 h, ?_⟩
  rw [splitPoint_eq p2 p1 A B g2 g1 hg2 hg1 hsym, key]

/-- Witness for C6 at a concrete date-line-crossing segment. -/
theorem splitPoint_deterministic_witness :
    crossesDiscontinuity ((-179 : ℚ), 0) ((179 : ℚ), 4) (plateCarree 0)
      (plateCarree 180) = true ∧
    ∃ s, splitPoint ((-179 : ℚ), 0) ((179 : ℚ), 4) (plateCarree 0)
        (plateCarree 180) = some s ∧
      splitPoint ((179 : ℚ), 4) ((-179 : ℚ), 0) (plateCarree 0)
        (plateCarree 180) = some s :=
  ⟨crossing_pc0_pc180 0 4, splitPoint_deterministic _ _ _ _ (crossing_pc0_pc180 0 4)⟩

theorem discMeridian_pc180 : discMeridian (plateCarree (180 : ℚ)) = 0 := by
  rw [discMeridian_plateCarree]
  exact wrapTo180_eval _ _ 1 (by push_cast; norm_num) (by norm_num) (by norm_num)

theorem projectPoint_dateline_west :
    projectPoint ((-179 : ℚ), 0) (plateCarree 0) (plateCarree 180) = some (1, 0) := by
  have hne : plateCarree (0 : ℚ) ≠ plateCarree 180 := by decide
  rw [projectPoint_plateCarree 0 180 (-179) 0 hne (by norm_num) (by norm_num),
    wrapTo180_eval ((-179 : ℚ) + 0) (-179) 0 (by push_cast; norm_num) (by norm_num)
      (by norm_num),
    wrapTo180_eval ((-179 : ℚ) - 180) 1 (-1) (by push_cast; norm_num) (by norm_num)
      (by norm_num)]

theorem projectPoint_dateline_east :
    projectPoint ((179 : ℚ), 0) (plateCarree 0) (plateCarree 180) = some (-1, 0) := by
  have hne : plateCarree (0 : ℚ) ≠ plateCarree 180 := by decide
  rw [projectPoint_plateCarree 0 180 179 0 hne (by norm_num) (by norm_num),
    wrapTo180_eval ((179 : ℚ) + 0) 179 0 (by push_cast; norm_num) (by norm_num)
      (by norm_num),
    wrapTo180_eval ((179 : ℚ) - 180) (-1) 0 (by push_cast; norm_num) (by norm_num)
      (by norm_num)]

theorem splitPoint_dateline :
    splitPoint ((-179 : ℚ), 0) ((179 : ℚ), 0) (plateCarree 0) (plateCarree 180) =
      some (0, 0) := by
  rw [splitPoint_eq ((-179 : ℚ), 0) ((179 : ℚ), 0) (plateCarree 0) (plateCarree 180)
    ((-179 : ℚ) + 0, 0) ((179 : ℚ) + 0, 0) (mathOf_plateCarree_inv 0 _)
    (mathOf_plateCarree_inv 0 _) (crossing_pc0_pc180 0 0)]
  simp [discMeridian_pc180]

theorem splitEdges_dateline :
    splitEdges ((-179 : ℚ), 0) ((179 : ℚ), 0) (plateCarree 0) (plateCarree 180) =
      (((180 : ℚ), 0), ((-180 : ℚ), 0)) := by
  have hw1 : wrapTo180 ((-179 : ℚ) + 0 - 0) = -179 :=
    wrapTo180_eval _ _ 0 (by norm_num) (by norm_num) (by norm_num)
  rw [splitEdges, splitPoint_dateline, mathOf_plateCarree_inv]
  simp only [discMeridian_pc180, hw1, halfWidth_plateCarree]
  rw [if_pos (by norm_num : (-179 : ℚ) < 0)]

theorem walkLine_dateline :
    walkLine (plateCarree 0) (plateCarree 180) none [] [((-179 : ℚ), 0), (179, 0)] =
      [[((1 : ℚ), 0), (180, 0)], [((-180 : ℚ), 0), (-1, 0)]] := by
  simp [walkLine, projectPoint_dateline_west, projectPoint_dateline_east,
    crossing_pc0_pc180 0 0, splitEdges_dateline]

/-- Claim C8: the LineString with endpoints at longitudes -179 and +179,
reprojected from the cylindrical family onto itself after a 180-degree
central-longitude shift, splits at the date line into exactly 2 parts,
each spanning no more than the family's valid width. -/
theorem dateline_split :
    ∃ part1 part2,
      reproject (.basic (.lineString [((-179 : ℚ), 0), (179, 0)])) (plateCarree 0)
          (plateCarree 180) =
        .ok (.multi [.lineString part1, .lineString part2]) ∧
      partSpan part1 ≤ validWidth (plateCarree 180) ∧
      partSpan part2 ≤ validWidth (plateCarree 180) := by
  refine ⟨[((1 : ℚ), 0), (180, 0)], [((-180 : ℚ), 0), (-1, 0)], ?_, ?_, ?_⟩
  · have hne : plateCarree (0 : ℚ) ≠ plateCarree 180 := by decide
    have hwf : wellFormed (.basic (.lineString [((-179 : ℚ), 0), (179, 0)])) = true := rfl
    rw [reproject.eq_def, if_pos hwf, if_neg hne]
    simp [reprojectBasic, walkLine_dateline]
  · simp only [partSpan, validWidth, xLimits_plateCarree, List.map, List.foldr]
    rw [show max (180 : ℚ) 1 = 180 from max_eq_left (by norm_num),
      show min (180 : ℚ) 1 = 1 from min_eq_right (by norm_num)]
    norm_num
  · simp only [partSpan, validWidth, xLimits_plateCarree, List.map, List.foldr]
    rw [show max (-1 : ℚ) (-180) = -1 from max_eq_left (by norm_num),
      show min (-1 : ℚ) (-180) = -180 from min_eq_right (by norm_num)]
    norm_num

/-- Claim C5: for every family registered in the Registry, construction
with a supplied parameter whose name is unknown to the schema fails with
`invalidParameter`; construction with a known parameter whose value is
outside its declared numeric range fails with `invalidParameter`; and,
all supplied parameters being acceptable, omitting a required parameter
that has no default fails with `missingRequiredParameter`. -/
theorem construct_validation (reg : Registry) (fam : String) (fs : FamilySchema)
    (supplied : List (String × ℚ))
    (hfound : reg.find? (fun e => e.1 == fam) = some (fam, fs)) :
    ((∃ kv ∈ supplied, findSchemaParam fs kv.1 = none) →
        construct reg fam supplied = .error .invalidParameter) ∧
    ((∃ kv ∈ supplied, ∃ ps, findSchemaParam fs kv.1 = some ps ∧
        (kv.2 < ps.lo ∨ ps.hi < kv.2)) →
        construct reg fam supplied = .error .invalidParameter) ∧
    ((∀ kv ∈ supplied, suppliedOk fs kv = true) →
      (∃ ps ∈ fs.schemaParams, ps.required = true ∧ ps.dflt = none ∧
        ∀ kv ∈ supplied, kv.1 ≠ ps.pname) →
        construct reg fam supplied = .error .missingRequiredParameter) := by
  have mkInvalid : ∀ kv ∈ supplied, suppliedOk fs kv = false →
      construct reg fam supplied = .error .invalidParameter := by
    intro kv hkv hok
    have hall : supplied.all (suppliedOk fs) = false := by
      rcases hb : supplied.all (suppliedOk fs) with _ | _
      · rfl
      · have h3 := List.all_eq_true.mp hb kv hkv
        rw [hok] at h3
        exact absurd h3 (by simp)
    rw [construct, hfound]
    simp [hall]
  refine ⟨?_, ?_, ?_⟩
  · rintro ⟨kv, hkv, hnone⟩
    exact mkInvalid kv hkv (by rw [suppliedOk, hnone])
  · rintro ⟨kv, hkv, ps, hps, hrange⟩
    refine mkInvalid kv hkv ?_
    rw [suppliedOk, hps]
    simp only [decide_eq_false_iff_not]
    rintro ⟨h1, h2⟩
    rcases hrange with h | h <;> linarith
  · intro hall hmiss
    have hall2 : supplied.all (suppliedOk fs) = true := List.all_eq_true.mpr hall
    obtain ⟨ps, hps, hreq, hdflt, hnot⟩ := hmiss
    have hmiss2 : missingRequired fs supplied = true := by
      rw [missingRequired, List.any_eq_true]
      refine ⟨ps, hps, ?_⟩
      rw [hreq, hdflt]
      simp only [Option.isNone_none, Bool.true_and, Bool.not_eq_true']
      rcases ha : supplied.any (fun kv => kv.1 == ps.pname) with _ | _
      · rfl
      · obtain ⟨kv, hkv, hbeq⟩ := List.any_eq_true.mp ha
        exact absurd (by simpa using hbeq) (hnot kv hkv)
    rw [construct, hfound]
    simp [hall2, hmiss2]

/-- Witness for C5 on a concrete registry: an out-of-range central
longitude, an unknown parameter name, and a missing required zone. -/
theorem construct_validation_witness :
    construct sampleRegistry ("platecarree") [(("central_longitude"), 999)] =
      .error .invalidParameter ∧
    construct sampleRegistry ("platecarree") [(("bogus"), 1)] =
      .error .invalidParameter ∧
    construct sampleRegistry ("utm") [] = .error .missingRequiredParameter := by
  have hfpc : sampleRegistry.find? (fun e => e.1 == ("platecarree")) =
      some (("platecarree"), ⟨[⟨("central_longitude"), -360, 360, false, some 0⟩]⟩) := by
    simp [sampleRegistry]
  have hfutm : sampleRegistry.find? (fun e => e.1 == ("utm")) =
      some (("utm"), ⟨[⟨("zone"), 1, 60, true, none⟩]⟩) := by
    simp [sampleRegistry]
  refine ⟨?_, ?_, ?_⟩
  · exact (construct_validation _ _ _ _ hfpc).2.1
      ⟨(("central_longitude"), 999), by simp,
        ⟨⟨("central_longitude"), -360, 360, false, some 0⟩,
          by simp [findSchemaParam, List.find?], by norm_num⟩⟩
  · exact (construct_validation _ _ _ _ hfpc).1
      ⟨(("bogus"), 1), by simp, by simp [findSchemaParam, List.find?]⟩
  · exact (construct_validation _ _ _ _ hfutm).2.2 (by simp)
      ⟨⟨("zone"), 1, 60, true, none⟩, by simp, rfl, rfl, by simp⟩

end Cartopy
